import Mathlib

set_option maxRecDepth 8000

/-
Verification of the arca_project repository core subsystems:
text chunker, credential rotator, embedding client, vector store
adapter and pipeline orchestrator.  Python source is embedded
shallowly: strings are Lean Strings (lists of Chars), machine-free
Python ints are Nat/Int, exceptions are Except, and calls to remote
services (Chroma, Gemini) are oracle parameters.
-/

-- ============================================================

-- Generic helpers mirroring Python string primitives

-- ============================================================

/-- Python whitespace characters stripped by str.strip (ASCII range;
the documents here are ASCII so wider Unicode whitespace is not modelled). -/
def isPySpace (c : Char) : Bool :=
  c = ' ' || c = '\t' || c = '\n' || c = '\r' || c = '\x0b' || c = '\x0c'

/-- Python str.strip: drop leading and trailing whitespace. -/

def stripChars (l : List Char) : List Char :=
  ((l.dropWhile isPySpace).reverse.dropWhile isPySpace).reverse

/-- Does the list start with the given pattern? (s.startswith at offset 0). -/

def startsWithL : List Char → List Char → Bool
  | _, [] => true
  | [], _ :: _ => false
  | a :: as, b :: bs => a == b && startsWithL as bs

/-- Does the pattern occur at absolute position p of the text? -/

def matchesAt (text sub : List Char) (p : Nat) : Bool :=
  startsWithL (text.drop p) sub

/-- Core of Python str.rfind(sub, s, e) for non-negative, already
adjusted bounds: the highest p with s ≤ p, p + len sub ≤ e and a match
at p; none when no occurrence exists. -/

def rfindCore (text sub : List Char) (s e : Nat) : Option Nat :=
  ((List.range (e + 1)).filter
    (fun p => decide (s ≤ p) && decide (p + sub.length ≤ e) && matchesAt text sub p)).getLast?

/-- Python slice/find index adjustment: negative indices count from the
end (clamped at 0), positive ones are clamped to the length. -/

def pyAdjust (len : Nat) (i : Int) : Nat :=
  if i < 0 then ((len : Int) + i).toNat else min i.toNat len

/-- Python slice text[i:j] with step 1 and possibly negative bounds. -/

def pySliceI (text : List Char) (i j : Int) : List Char :=
  let s := pyAdjust text.length i
  let e := pyAdjust text.length j
  (text.drop s).take (e - s)

/-- Python str.rfind(sub, i, j) with Python index adjustment; -1 when absent. -/

def pyRfindI (text sub : List Char) (i j : Int) : Int :=
  match rfindCore text sub (pyAdjust text.length i) (pyAdjust text.length j) with
  | some p => (p : Int)
  | none => -1

/-- Python s[:n] on a string. -/

def pyTrunc (n : Nat) (s : String) : String :=
  String.mk (s.toList.take n)

/-- Characterwise ASCII lowering, modelling str.lower on the ASCII texts used here. -/

def lowerChars (l : List Char) : List Char :=
  l.map Char.toLower

/-- Substring occurrence test on character lists ("needle in haystack"). -/

def hasSubstr (needle : List Char) : List Char → Bool
  | [] => startsWithL [] needle
  | h :: t => startsWithL (h :: t) needle || hasSubstr needle t

-- ============================================================

-- SHA-256 (hashlib.sha256(...).hexdigest() over UTF-8 bytes)

-- ============================================================

/-- UTF-8 encoding of a single character (Python str.encode()). -/

def utf8EncodeChar (c : Char) : List Nat :=
  let n := c.toNat
  if n < 0x80 then [n]
  else if n < 0x800 then [0xC0 ||| (n >>> 6), 0x80 ||| (n &&& 0x3F)]
  else if n < 0x10000 then
    [0xE0 ||| (n >>> 12), 0x80 ||| ((n >>> 6) &&& 0x3F), 0x80 ||| (n &&& 0x3F)]
  else
    [0xF0 ||| (n >>> 18), 0x80 ||| ((n >>> 12) &&& 0x3F),
     0x80 ||| ((n >>> 6) &&& 0x3F), 0x80 ||| (n &&& 0x3F)]

/-- UTF-8 encoding of a string. -/

def utf8Encode (s : String) : List Nat :=
  (s.toList.map utf8EncodeChar).flatten

def rotr32 (x n : Nat) : Nat :=
  ((x >>> n) ||| (x <<< (32 - n))) % 4294967296

def smallSigma0 (x : Nat) : Nat := (rotr32 x 7) ^^^ (rotr32 x 18) ^^^ (x >>> 3)

def smallSigma1 (x : Nat) : Nat := (rotr32 x 17) ^^^ (rotr32 x 19) ^^^ (x >>> 10)

def bigSigma0 (x : Nat) : Nat := (rotr32 x 2) ^^^ (rotr32 x 13) ^^^ (rotr32 x 22)

def bigSigma1 (x : Nat) : Nat := (rotr32 x 6) ^^^ (rotr32 x 11) ^^^ (rotr32 x 25)

def chFun (x y z : Nat) : Nat := (x &&& y) ^^^ ((x ^^^ 4294967295) &&& z)

def majFun (x y z : Nat) : Nat := (x &&& y) ^^^ (x &&& z) ^^^ (y &&& z)

def sha256K : List Nat :=
  [1116352408, 1899447441, 3049323471, 3921009573, 961987163,
   1508970993, 2453635748, 2870763221, 3624381080, 310598401,
   607225278, 1426881987, 1925078388, 2162078206, 2614888103,
   3248222580, 3835390401, 4022224774, 264347078, 604807628,
   770255983, 1249150122, 1555081692, 1996064986, 2554220882,
   2821834349, 2952996808, 3210313671, 3336571891, 3584528711,
   113926993, 338241895, 666307205, 773529912, 1294757372,
   1396182291, 1695183700, 1986661051, 2177026350, 2456956037,
   2730485921, 2820302411, 3259730800, 3345764771, 3516065817,
   3600352804, 4094571909, 275423344, 430227734, 506948616,
   659060556, 883997877, 958139571, 1322822218, 1537002063,
   1747873779, 1955562222, 2024104815, 2227730452, 2361852424,
   2428436474, 2756734187, 3204031479, 3329325298]

def sha256H0 : List Nat :=
  [1779033703, 3144134277, 1013904242, 2773480762, 1359893119,
   2600822924, 528734635, 1541459225]

/-- Big-endian byte decomposition, width given in bytes. -/

def toBytesBE (len x : Nat) : List Nat :=
  (List.range len).map (fun i => (x >>> (8 * (len - 1 - i))) % 256)

/-- SHA-256 message padding: 0x80, zeros to 56 mod 64, then the 64-bit
big-endian bit length. -/

def sha256Pad (msg : List Nat) : List Nat :=
  let L := msg.length
  let k := (119 - (L % 64)) % 64
  msg ++ [0x80] ++ List.replicate k 0 ++ toBytesBE 8 (8 * L)

/-- Group bytes into big-endian 32-bit words. -/

def bytesToWords : List Nat → List Nat
  | b0 :: b1 :: b2 :: b3 :: rest =>
      ((b0 <<< 24) ||| (b1 <<< 16) ||| (b2 <<< 8) ||| b3) :: bytesToWords rest
  | _ => []

/-- Group a word list into 16-word blocks (fuel-indexed for structural recursion). -/

def group16Aux : Nat → List Nat → List (List Nat)
  | 0, _ => []
  | _ + 1, [] => []
  | n + 1, ws => ws.take 16 :: group16Aux n (ws.drop 16)

/-- One step of the SHA-256 message-schedule extension. -/

def extendStep (ws : List Nat) : List Nat :=
  let t := ws.length
  let w2 := ws.getD (t - 2) 0
  let w7 := ws.getD (t - 7) 0
  let w15 := ws.getD (t - 15) 0
  let w16 := ws.getD (t - 16) 0
  ws ++ [(smallSigma1 w2 + w7 + smallSigma0 w15 + w16) % 4294967296]

/-- Full 64-word message schedule of one block. -/

def sha256Schedule (block : List Nat) : List Nat :=
  extendStep^[48] block

/-- One compression round on the 8-word working state. -/

def sha256Round (k w : Nat) (st : List Nat) : List Nat :=
  match st with
  | [a, b, c, d, e, f, g, h] =>
    let t1 := (h + bigSigma1 e + chFun e f g + k + w) % 4294967296
    let t2 := (bigSigma0 a + majFun a b c) % 4294967296
    [(t1 + t2) % 4294967296, a, b, c, (d + t1) % 4294967296, e, f, g]
  | other => other

/-- Compress one 16-word block into the hash state. -/

def sha256Block (H block : List Nat) : List Nat :=
  let ws := sha256Schedule block
  let st := (List.zip sha256K ws).foldl (fun st kw => sha256Round kw.1 kw.2 st) H
  (List.zip H st).map (fun p => (p.1 + p.2) % 4294967296)

def hexChar (n : Nat) : Char := "0123456789abcdef".toList.getD n '0'

def toHex8 (x : Nat) : List Char :=
  (List.range 8).map (fun i => hexChar ((x >>> (4 * (7 - i))) % 16))

/-- SHA-256 hex digest of a byte sequence. -/

def sha256hexBytes (msg : List Nat) : String :=
  let ws := bytesToWords (sha256Pad msg)
  let H := (group16Aux ws.length ws).foldl sha256Block sha256H0
  String.mk (H.map toHex8).flatten

/-- hashlib.sha256(s.encode()).hexdigest(). -/

def sha256hex (s : String) : String :=
  sha256hexBytes (utf8Encode s)

-- ============================================================

-- src/src/utils.py

-- ============================================================

/-- Python truthiness coercion (d or "") for an optional string:
None and the empty string both yield "". -/

def pyOrEmpty (d : Option String) : String :=
  match d with
  | none => ""
  | some s => if s = "" then "" else s

/-- The pre-hash base string (date_of_law or "") + "|" + text. -/

def regulationBase (text : String) (date_of_law : Option String) : String :=
  pyOrEmpty date_of_law ++ "|" ++ text

/-- regulation_id_for from src/src/utils.py. -/

def regulation_id_for (text : String) (date_of_law : Option String) : String :=
  sha256hex (regulationBase text date_of_law)

-- ============================================================

-- src/src/gemini_manager.py

-- ============================================================

/-- GeminiKeyManager state: the filtered credential pool and the index
of the active credential. -/

structure GeminiKeyManager where
  api_keys : List String
  current_key_index : Nat

/-- GeminiKeyManager.__init__: keep the non-None environment keys and
fail when none are available (construction error). -/

def mkKeyManager (envKeys : List (Option String)) : Except String GeminiKeyManager :=
  let keys := envKeys.filterMap id
  if keys.isEmpty then .error "No Gemini API keys found in environment variables"
  else .ok { api_keys := keys, current_key_index := 0 }

/-- GeminiKeyManager.rotate_key: advance the index modulo the pool size
(the genai.configure side effect carries no further state here). -/

def rotate_key (m : GeminiKeyManager) : GeminiKeyManager :=
  { m with current_key_index := (m.current_key_index + 1) % m.api_keys.length }

/-- GeminiKeyManager.get_current_key. -/

def get_current_key (m : GeminiKeyManager) : String :=
  m.api_keys.getD m.current_key_index ""

/-- The rate-limit classifier of embed_content_with_retry:
str(e).lower() contains "429", "quota" or "rate limit". -/

def isRateLimitError (msg : String) : Bool :=
  let l := lowerChars msg.toList
  hasSubstr "429".toList l || hasSubstr "quota".toList l ||
    hasSubstr "rate limit".toList l

/-- The retry loop of embed_content_with_retry.  The remote
genai.embed_content outcome at the k-th attempt is supplied by the
oracle (in the source it depends on the key configured at that moment);
the pair returned carries the manager state after any rotations. -/

def embedGo (remote : Nat → Except String E) (maxRetries : Nat) :
    Nat → GeminiKeyManager → Except String E × GeminiKeyManager
  | attempt, m =>
    if _h : attempt < maxRetries then
      match remote attempt with
      | .ok v => (.ok v, m)
      | .error msg =>
        if isRateLimitError msg then
          if attempt < maxRetries - 1 then
            embedGo remote maxRetries (attempt + 1) (rotate_key m)
          else
            (.error ("All " ++ toString m.api_keys.length ++ " API keys hit rate limits"), m)
        else (.error msg, m)
    else (.error "Failed to embed content after all retries", m)
  termination_by attempt => maxRetries - attempt
  decreasing_by omega

/-- GeminiKeyManager.embed_content_with_retry: max_retries defaults to
the pool size. -/

def embed_content_with_retry (remote : Nat → Except String E)
    (m : GeminiKeyManager) (maxRetriesOpt : Option Nat) :
    Except String E × GeminiKeyManager :=
  embedGo remote (maxRetriesOpt.getD m.api_keys.length) 0 m

def remoteW : Nat → Except String Nat := fun _ => Except.error "429"

def mgrW : GeminiKeyManager := ⟨["k1", "k2"], 0⟩

-- ============================================================

-- SimpleTextSplitter.split_text (src/src/vector_db_search.py)

-- ============================================================

def paraSep : List Char := ['\n', '\n']

/-- The sentence separators tried by split_text, in source order. -/

def sentenceSeps : List (List Char) :=
  [['.', ' '], ['!', ' '], ['?', ' '], ['.', '\n'], ['!', '\n'], ['?', '\n']]

/-- The best_break accumulation of src/src/vector_db_search.py: for each
separator found after start + 100, keep the maximum pos + len(sep);
none mirrors the -1 initial value (every recorded candidate is positive). -/

def bestBreakAux (text : List Char) (start e0 : Nat) (acc : Option Nat) :
    List (List Char) → Option Nat
  | [] => acc
  | sep :: rest =>
    match rfindCore text sep start e0 with
    | some pos =>
        if start + 100 < pos then
          bestBreakAux text start e0 (some (max (acc.getD 0) (pos + sep.length))) rest
        else bestBreakAux text start e0 acc rest
    | none => bestBreakAux text start e0 acc rest

def bestBreak (text : List Char) (start e0 : Nat) : Option Nat :=
  bestBreakAux text start e0 none sentenceSeps

/-- The sentence-break branch: use best_break when it cleared the
start + 100 threshold, otherwise keep the raw window end. -/

def sentenceEnd (text : List Char) (start e0 : Nat) : Nat :=
  match bestBreak text start e0 with
  | some b => if start + 100 < b then b else e0
  | none => e0

/-- The boundary-adjusted end of the window beginning at start: raw end
min(start + chunk_size, len), then a paragraph break strictly after
start + 100, then the sentence separators.  All Python ints here stay
non-negative, so Nat is faithful. -/

def windowEnd (cs : Nat) (text : List Char) (start : Nat) : Nat :=
  let e0 := min (start + cs) text.length
  if e0 < text.length then
    match rfindCore text paraSep start e0 with
    | some p => if start + 100 < p then p + 2 else sentenceEnd text start e0
    | none => sentenceEnd text start e0
  else e0

/-- next_start = max(end - chunk_overlap, start + chunk_size // 2); the
Python max of a possibly negative int and a non-negative one equals the
Nat form with truncated subtraction. -/

def nextStart (cs ov start e : Nat) : Nat := max (e - ov) (start + cs / 2)

/-- The while loop of split_text recording each iteration's
(start, end) window; fuel-indexed, none when fuel runs out. -/

def splitLoop (cs ov : Nat) (text : List Char) : Nat → Nat → Option (List (Nat × Nat))
  | 0, start => if start < text.length then none else some []
  | fuel + 1, start =>
    if start < text.length then
      let e := windowEnd cs text start
      if text.length ≤ e then some [(start, e)]
      else
        match splitLoop cs ov text fuel (nextStart cs ov start e) with
        | none => none
        | some rest => some ((start, e) :: rest)
    else some []

/-- The windows visited by split_text; text.length + 1 units of fuel
suffice whenever chunk_size ≥ 2 (proved below). -/

def splitWindows (cs ov : Nat) (text : List Char) : Option (List (Nat × Nat)) :=
  splitLoop cs ov text (text.length + 1) 0

/-- SimpleTextSplitter.split_text of src/src/vector_db_search.py: the
empty text short-circuits to []; otherwise each window's slice is
stripped and appended when non-empty (the loop control never reads the
emitted chunk, so chunks = windows mapped and filtered). -/

def split_text (cs ov : Nat) (text : List Char) : Option (List (List Char)) :=
  if text.isEmpty then some []
  else
    match splitWindows cs ov text with
    | none => none
    | some ws =>
        some ((ws.map (fun w => stripChars ((text.drop w.1).take (w.2 - w.1)))).filter
          (fun c => !c.isEmpty))

-- ============================================================

-- SimpleTextSplitter.split_text (seed_defaults.py revision)

-- ============================================================

/-- The sentence-break scan of seed_defaults.py: stop at the first
separator whose rfind lands strictly after start (Python break). -/

def seedSentBreak (text : List Char) (start e0 : Int) : List (List Char) → Int
  | [] => e0
  | sep :: rest =>
    let ls := pyRfindI text sep start e0
    if start < ls then ls + sep.length else seedSentBreak text start e0 rest

/-- One iteration body of the seed_defaults.py split_text loop:
returns the emitted (pre-filter) chunk, the next start
end - chunk_overlap, and whether the loop breaks (end >= len).
Unlike the src/src revision there is no +100 threshold, the first
matching separator wins, and the advance is unguarded, so start is an
Int exactly as in Python. -/

def seedStep (cs ov : Nat) (text : List Char) (start : Int) : List Char × Int × Bool :=
  let len : Int := text.length
  let e0 : Int := min (start + cs) len
  let e : Int :=
    if e0 < len then
      let lp := pyRfindI text paraSep start e0
      if start < lp then lp + 2
      else seedSentBreak text start e0 sentenceSeps
    else e0
  let chunk := stripChars (pySliceI text start e)
  (chunk, e - ov, decide (len ≤ e))

/-- The seed_defaults.py while loop; fuel-indexed, none when fuel runs
out (the loop itself has no termination guard). -/

def seedLoop (cs ov : Nat) (text : List Char) : Nat → Int → Option (List (List Char))
  | 0, start => if start < (text.length : Int) then none else some []
  | fuel + 1, start =>
    if start < (text.length : Int) then
      match seedStep cs ov text start with
      | (chunk, nxt, done) =>
        if done then some (if chunk.isEmpty then [] else [chunk])
        else
          match seedLoop cs ov text fuel nxt with
          | none => none
          | some rest => some (if chunk.isEmpty then rest else chunk :: rest)
    else some []

/-- SimpleTextSplitter.split_text of seed_defaults.py. -/

def seed_split_text (cs ov : Nat) (text : List Char) (fuel : Nat) :
    Option (List (List Char)) :=
  if text.isEmpty then some [] else seedLoop cs ov text fuel 0

/-- A 502-character document whose only paragraph break sits at
position 100: 100 x characters, a blank line, 400 y characters. -/

def seedBugText : List Char :=
  List.replicate 100 'x' ++ '\n' :: '\n' :: List.replicate 400 'y'

/-- A 353-character document with its only paragraph break at position
101, used as a concrete splitter input. -/

def wtext : List Char :=
  List.replicate 101 'a' ++ '\n' :: '\n' :: List.replicate 250 'b'

-- ============================================================

-- VectorDB (src/src/vector_db_search.py and seed_defaults.py)

-- ============================================================

/-- A Chroma query result: ids and documents, one inner list per query
text (Chroma returns one row per query text; the code reads index [0]). -/

structure ChromaResult where
  ids : List (List String)
  documents : List (List String)

/-- results.get("documents", [[]])[0]. -/

def docsOf (r : ChromaResult) : List String := r.documents.headD []

/-- ids = results.get("ids", [[]])[0] if results.get("ids") else []: a
missing/empty ids list and the [[]] default both give []. -/

def idsOf (r : ChromaResult) : List String := r.ids.headD []

/-- VectorDB.search of src/src/vector_db_search.py over a query oracle
standing for self.collection.query.  The first, tenant-scoped query is
wrapped in try/except returning [] on error; the fallback query to the
"default" tenant sits outside the try, so its errors propagate. -/

def search (q : String → String → Nat → Except String ChromaResult)
    (query user_id : String) (top_k : Nat) : Except String (List (String × String)) :=
  match q query user_id top_k with
  | .error _ => .ok []
  | .ok r =>
    if (docsOf r).isEmpty ∧ user_id ≠ "default" then
      match q query "default" top_k with
      | .error e => .error e
      | .ok r2 =>
        if (docsOf r2).isEmpty then .ok []
        else .ok (List.zip (idsOf r2) (docsOf r2))
    else
      if (docsOf r).isEmpty then .ok []
      else .ok (List.zip (idsOf r) (docsOf r))

/-- VectorDB.search of seed_defaults.py: same fallback logic but no
try/except anywhere, so every query error propagates. -/

def seed_search (q : String → String → Nat → Except String ChromaResult)
    (query user_id : String) (top_k : Nat) : Except String (List (String × String)) :=
  match q query user_id top_k with
  | .error e => .error e
  | .ok r =>
    if (docsOf r).isEmpty ∧ user_id ≠ "default" then
      match q query "default" top_k with
      | .error e => .error e
      | .ok r2 =>
        if (docsOf r2).isEmpty then .ok []
        else .ok (List.zip (idsOf r2) (docsOf r2))
    else
      if (docsOf r).isEmpty then .ok []
      else .ok (List.zip (idsOf r) (docsOf r))

/-- VectorDB.add_document of seed_defaults.py (the src/src revision's
body is an empty pass stub): split the text, build per-chunk
user_id-uuid ids and source/user metadata, then call collection.add
(the addC oracle) with no exception handling; uuid4 draws come from the
uuids stream.  none only when the splitter itself never terminates. -/

def seed_add_document
    (addC : List (List Char) → List (String × String) → List String → Except String Unit)
    (uuids : Nat → String) (cs ov : Nat) (text : List Char)
    (filename user_id : String) (fuel : Nat) : Option (Except String Unit) :=
  match seed_split_text cs ov text fuel with
  | none => none
  | some chunks =>
    some (addC chunks (chunks.map (fun _ => (filename, user_id)))
      ((List.range chunks.length).map (fun i => user_id ++ "-" ++ uuids i)))

def qW : String → String → Nat → Except String ChromaResult := fun _ uid _ =>
  if uid = "default" then .ok ⟨[["d1"]], [["shared doc"]]⟩ else .ok ⟨[[]], [[]]⟩

-- ============================================================

-- src/src/agents.py: VectorDBSearchTool._run

-- ============================================================

/-- The dedup fingerprint: text[:150].strip().lower(). -/

def fingerprint (text : String) : String :=
  String.mk (lowerChars (stripChars (text.toList.take 150)))

/-- The dedup loop of _run: walk results in order, keep a pair whose
fingerprint is new, and stop once 3 unique excerpts are collected (the
length check runs after each iteration, appended or not). -/

def dedupAux (seen : List String) (uniq : List (String × String)) :
    List (String × String) → List (String × String)
  | [] => uniq
  | (doc_id, t) :: rest =>
    let fp := fingerprint t
    if seen.contains fp then
      if 3 ≤ uniq.length then uniq else dedupAux seen uniq rest
    else
      let uniq' := uniq ++ [(doc_id, t)]
      if 3 ≤ uniq'.length then uniq' else dedupAux (fp :: seen) uniq' rest

/-- cleaned = text.replace newline and carriage return by spaces,
strip, then [:700]. -/

def cleanContent (t : String) : String :=
  String.mk ((stripChars (t.toList.map
    (fun c => if c = '\n' ∨ c = '\r' then ' ' else c))).take 700)

/-- One rendered block: POLICY_ID / CONTENT / separator. -/

def mkBlock (doc_id t : String) : String :=
  "POLICY_ID: " ++ doc_id ++ "\nCONTENT: " ++ cleanContent t ++ "\n---"

/-- VectorDBSearchTool._run over a search oracle standing for
get_db().search (which may raise).  The entire body sits in one
try/except whose handler renders the message as "ERROR: ...", so the
tool itself is total; an empty result after the extra agent-level
default fallback renders "NO RESULT". -/

def toolRun (searchO : String → String → Nat → Except String (List (String × String)))
    (query user_id : String) : String :=
  match searchO query user_id 10 with
  | .error e => "ERROR: " ++ e
  | .ok r0 =>
    match (if r0.isEmpty ∧ user_id ≠ "default" then searchO query "default" 10 else .ok r0) with
    | .error e => "ERROR: " ++ e
    | .ok results =>
      if results.isEmpty then "NO RESULT"
      else
        let uniq := dedupAux [] [] results
        if uniq.isEmpty then "NO RESULT"
        else String.intercalate "\n" (uniq.map (fun p => mkBlock p.1 p.2))

-- ============================================================

-- src/src/agents.py: pydantic models and run_arca_pipeline

-- ============================================================

/-- RiskItem: severity is a plain string field (the HIGH/MEDIUM/LOW
wording lives only in the Field description, which pydantic does not
validate). -/

structure RiskItem where
  policy_id : String
  severity : String
  divergence_summary : String
  conflicting_policy_excerpt : String
  new_rule_excerpt : String
  recommended_action : String

structure RiskAnalysisReport where
  risks : List RiskItem

structure FinalRecommendation where
  recommendation : String
  compliance_score : String

/-- One risk entry of the final report dict, after the pipeline's
field truncations. -/

structure ReportRisk where
  policy_id : String
  severity : String
  divergence_summary : String
  conflicting_policy_excerpt : String
  new_rule_excerpt : String
  recommended_action : String

/-- The final report dict of run_arca_pipeline. -/

structure ComplianceReport where
  regulation_id : String
  date_processed : String
  total_risks_flagged : Nat
  risks : List ReportRisk
  recommendation : String
  compliance_score : String

/-- The synthetic HIGH system_error item produced when every attempt
failed. -/

def systemErrorItem (lastError text : String) : RiskItem :=
  { policy_id := "system_error", severity := "HIGH",
    divergence_summary := "Analysis failed: " ++ pyTrunc 200 lastError,
    conflicting_policy_excerpt := "N/A",
    new_rule_excerpt := pyTrunc 300 text,
    recommended_action := "Retry analysis or contact support" }

/-- The synthetic LOW compliant item produced when the audit found no
risks. -/

def compliantItem (text : String) : RiskItem :=
  { policy_id := "compliant", severity := "LOW",
    divergence_summary := "No significant compliance gaps identified",
    conflicting_policy_excerpt := "Existing policies align with regulation",
    new_rule_excerpt := pyTrunc 300 text,
    recommended_action := "Conduct periodic review to ensure continued compliance" }

/-- The bounded retry loop of run_arca_pipeline: the oracle gives each
attempt's crew outcome (audit report and recommendation, or the raised
error's text).  Whatever the error class, the Python loop proceeds to
the next attempt or falls off the loop, recording last_error; the
key-rotation side effect only changes which key the next crew uses,
which the per-attempt oracle already absorbs.  The first argument
counts the remaining attempts (max_retries - attempt), the second is
the attempt index fed to the oracle. -/

def crewLoop (oracle : Nat → Except String (RiskAnalysisReport × FinalRecommendation)) :
    Nat → Nat → Option String →
    Option (RiskAnalysisReport × FinalRecommendation) × Option String
  | 0, _, lastErr => (none, lastErr)
  | remaining + 1, attempt, lastErr =>
    match oracle attempt with
    | .ok res => (some res, lastErr)
    | .error e => crewLoop oracle remaining (attempt + 1) (some e)

/-- The risk-list normalization of run_arca_pipeline: risks from the
audit output when an attempt succeeded, the synthetic system_error item
when no attempt succeeded and an error was recorded, and the synthetic
compliant item when the list is empty. -/

def pipelineRisks
    (res : Option (RiskAnalysisReport × FinalRecommendation) × Option String)
    (new_regulation_text : String) : List RiskItem :=
  let risks0 := match res.1 with
    | some rr => rr.1.risks
    | none => []
  match res.1, res.2 with
  | none, some e => [systemErrorItem e new_regulation_text]
  | _, _ => if risks0.isEmpty then [compliantItem new_regulation_text] else risks0

/-- run_arca_pipeline of src/src/agents.py: three crew attempts, then
result processing — system_error fallback, compliant fallback, cap at
5 risks, and per-field truncation of the report entries.  today stands
for today_iso(). -/

def run_arca_pipeline
    (oracle : Nat → Except String (RiskAnalysisReport × FinalRecommendation))
    (new_regulation_text user_id : String) (date_of_law : Option String)
    (today : String) : ComplianceReport :=
  let res := crewLoop oracle 3 0 none
  let risks2 := (pipelineRisks res new_regulation_text).take 5
  { regulation_id := regulation_id_for new_regulation_text date_of_law,
    date_processed := today,
    total_risks_flagged := risks2.length,
    risks := risks2.map (fun r =>
      { policy_id := r.policy_id,
        severity := r.severity,
        divergence_summary := r.divergence_summary,
        conflicting_policy_excerpt := pyTrunc 800 r.conflicting_policy_excerpt,
        new_rule_excerpt := pyTrunc 800 r.new_rule_excerpt,
        recommended_action := pyTrunc 500 r.recommended_action }),
    recommendation := match res.1 with
      | some rr => rr.2.recommendation
      | none => "Analysis completed.",
    compliance_score := match res.1 with
      | some rr => rr.2.compliance_score
      | none => "UNKNOWN" }

-- ============================================================
-- Theorems
-- ============================================================

theorem rotate_key_api_keys (m : GeminiKeyManager) :
    (rotate_key m).api_keys = m.api_keys := rfl

theorem rotate_key_iterate_keys (m : GeminiKeyManager) (k : Nat) :
    (rotate_key^[k] m).api_keys = m.api_keys := by
  induction k with
  | zero => rfl
  | succ k ih => rw [Function.iterate_succ_apply', rotate_key_api_keys, ih]

theorem rotate_key_iterate_index (m : GeminiKeyManager)
    (h : m.current_key_index < m.api_keys.length) (k : Nat) :
    (rotate_key^[k] m).current_key_index =
      (m.current_key_index + k) % m.api_keys.length := by
  induction k with
  | zero => simpa using (Nat.mod_eq_of_lt h).symm
  | succ k ih =>
      rw [Function.iterate_succ_apply']
      show ((rotate_key^[k] m).current_key_index + 1) % (rotate_key^[k] m).api_keys.length =
        (m.current_key_index + (k + 1)) % m.api_keys.length
      rw [rotate_key_iterate_keys, ih, Nat.mod_add_mod, Nat.add_assoc]

theorem GeminiKeyManager.eq_of (a b : GeminiKeyManager)
    (h1 : a.api_keys = b.api_keys)
    (h2 : a.current_key_index = b.current_key_index) : a = b := by
  cases a; cases b; simp_all

/-- C9: for every credential pool of size N (with the current index in
bounds, as construction and rotation guarantee), N calls of rotate_key
restore the manager — in particular the current credential — and every
iterated rotation keeps the index strictly below N. -/
theorem claim_C9 (m : GeminiKeyManager)
    (h : m.current_key_index < m.api_keys.length) :
    (rotate_key^[m.api_keys.length] m = m ∧
      get_current_key (rotate_key^[m.api_keys.length] m) = get_current_key m) ∧
    ∀ k : Nat, (rotate_key^[k] m).current_key_index < m.api_keys.length := by
  have hcycle : rotate_key^[m.api_keys.length] m = m := by
    refine GeminiKeyManager.eq_of _ _ (rotate_key_iterate_keys m _) ?_
    rw [rotate_key_iterate_index m h, Nat.add_mod_right, Nat.mod_eq_of_lt h]
  refine ⟨⟨hcycle, by rw [hcycle]⟩, fun k => ?_⟩
  rw [rotate_key_iterate_index m h]
  exact Nat.mod_lt _ (by omega)

theorem claim_C9_witness :
    (rotate_key^[(GeminiKeyManager.mk ["a", "b", "c"] 0).api_keys.length]
        (GeminiKeyManager.mk ["a", "b", "c"] 0) = GeminiKeyManager.mk ["a", "b", "c"] 0 ∧
      get_current_key (rotate_key^[(GeminiKeyManager.mk ["a", "b", "c"] 0).api_keys.length]
        (GeminiKeyManager.mk ["a", "b", "c"] 0)) =
        get_current_key (GeminiKeyManager.mk ["a", "b", "c"] 0)) ∧
    ∀ k : Nat, (rotate_key^[k] (GeminiKeyManager.mk ["a", "b", "c"] 0)).current_key_index <
      (GeminiKeyManager.mk ["a", "b", "c"] 0).api_keys.length :=
  claim_C9 (GeminiKeyManager.mk ["a", "b", "c"] 0) (by decide)

theorem embedGo_quota_step (remote : Nat → Except String E) (mr a : Nat)
    (m : GeminiKeyManager) (msg : String) (hlt : a + 1 < mr)
    (hmsg : remote a = .error msg) (hrl : isRateLimitError msg = true) :
    embedGo remote mr a m = embedGo remote mr (a + 1) (rotate_key m) := by
  rw [embedGo]
  simp [show a < mr by omega, hmsg, hrl, show a < mr - 1 by omega]

theorem embedGo_other_step (remote : Nat → Except String E) (mr a : Nat)
    (m : GeminiKeyManager) (msg : String) (hlt : a < mr)
    (hmsg : remote a = .error msg) (hrl : isRateLimitError msg = false) :
    embedGo remote mr a m = (.error msg, m) := by
  rw [embedGo]
  simp [hlt, hmsg, hrl]

theorem embedGo_exhaust (remote : Nat → Except String E) (mr : Nat) :
    ∀ f a (m : GeminiKeyManager), mr - a = f → a < mr →
    (∀ k, k < mr → ∃ msg, remote k = .error msg ∧ isRateLimitError msg = true) →
    ∃ mf, embedGo remote mr a m =
      (.error ("All " ++ toString m.api_keys.length ++ " API keys hit rate limits"), mf) := by
  intro f
  induction f with
  | zero => intro a m hf ha _; omega
  | succ f ih =>
    intro a m hf ha hq
    obtain ⟨msg, hmsg, hrl⟩ := hq a ha
    by_cases hlast : a < mr - 1
    · obtain ⟨mf, hmf⟩ := ih (a + 1) (rotate_key m) (by omega) (by omega) hq
      rw [rotate_key_api_keys] at hmf
      exact ⟨mf, by rw [embedGo_quota_step remote mr a m msg (by omega) hmsg hrl]; exact hmf⟩
    · refine ⟨m, ?_⟩
      rw [embedGo]
      simp [ha, hmsg, hrl, hlast]

theorem embedGo_agree (remote remote' : Nat → Except String E) (mr : Nat)
    (hagree : ∀ k, k < mr → remote k = remote' k) :
    ∀ f a (m : GeminiKeyManager), mr - a = f →
    embedGo remote mr a m = embedGo remote' mr a m := by
  intro f
  induction f with
  | zero =>
    intro a m hf
    conv_lhs => rw [embedGo]
    conv_rhs => rw [embedGo]
    simp [show ¬ a < mr by omega]
  | succ f ih =>
    intro a m hf
    by_cases ha : a < mr
    · conv_lhs => rw [embedGo]
      conv_rhs => rw [embedGo]
      rw [← hagree a ha]
      simp only [ha, dite_true, dif_pos]
      cases hr : remote a with
      | ok v => simp
      | error msg =>
        by_cases hrl : isRateLimitError msg
        · by_cases hlast : a < mr - 1
          · simp only [hrl, if_true, hlast, if_pos]
            exact ih (a + 1) (rotate_key m) (by omega)
          · simp [hrl, hlast]
        · simp [hrl]
    · conv_lhs => rw [embedGo]
      conv_rhs => rw [embedGo]
      simp [ha]

/-- C3: for embed_content_with_retry, the default attempt cap equals the
pool size; a quota/rate-limit-matching error rotates to the next
credential and retries; any non-matching error is raised immediately
with no rotation and no retry; outcomes beyond the cap never matter;
and when every attempt within the cap hits a quota error the call fails
with the credentials-exhausted error instead of returning a vector. -/
theorem claim_C3 (remote : Nat → Except String E) (m : GeminiKeyManager)
    (hpool : 0 < m.api_keys.length) :
    (embed_content_with_retry remote m none = embedGo remote m.api_keys.length 0 m) ∧
    (∀ (a : Nat) (m' : GeminiKeyManager) (msg : String),
      a + 1 < m.api_keys.length → remote a = .error msg → isRateLimitError msg = true →
      embedGo remote m.api_keys.length a m' =
        embedGo remote m.api_keys.length (a + 1) (rotate_key m')) ∧
    (∀ (a : Nat) (m' : GeminiKeyManager) (msg : String),
      a < m.api_keys.length → remote a = .error msg → isRateLimitError msg = false →
      embedGo remote m.api_keys.length a m' = (.error msg, m')) ∧
    (∀ remote' : Nat → Except String E,
      (∀ k, k < m.api_keys.length → remote k = remote' k) →
      embed_content_with_retry remote m none = embed_content_with_retry remote' m none) ∧
    ((∀ k, k < m.api_keys.length →
        ∃ msg, remote k = .error msg ∧ isRateLimitError msg = true) →
      ∃ mf, embed_content_with_retry remote m none =
        (.error ("All " ++ toString m.api_keys.length ++ " API keys hit rate limits"), mf)) := by
  refine ⟨rfl, ?_, ?_, ?_, ?_⟩
  · intro a m' msg h1 h2 h3
    exact embedGo_quota_step remote m.api_keys.length a m' msg h1 h2 h3
  · intro a m' msg h1 h2 h3
    exact embedGo_other_step remote m.api_keys.length a m' msg h1 h2 h3
  · intro remote' hagree
    exact embedGo_agree remote remote' m.api_keys.length hagree (m.api_keys.length - 0) 0 m rfl
  · intro hq
    exact embedGo_exhaust remote m.api_keys.length (m.api_keys.length - 0) 0 m rfl hpool hq

theorem claim_C3_witness :
    (embed_content_with_retry remoteW mgrW none = embedGo remoteW mgrW.api_keys.length 0 mgrW) ∧
    (∀ (a : Nat) (m' : GeminiKeyManager) (msg : String),
      a + 1 < mgrW.api_keys.length → remoteW a = .error msg → isRateLimitError msg = true →
      embedGo remoteW mgrW.api_keys.length a m' =
        embedGo remoteW mgrW.api_keys.length (a + 1) (rotate_key m')) ∧
    (∀ (a : Nat) (m' : GeminiKeyManager) (msg : String),
      a < mgrW.api_keys.length → remoteW a = .error msg → isRateLimitError msg = false →
      embedGo remoteW mgrW.api_keys.length a m' = (.error msg, m')) ∧
    (∀ remote' : Nat → Except String Nat,
      (∀ k, k < mgrW.api_keys.length → remoteW k = remote' k) →
      embed_content_with_retry remoteW mgrW none = embed_content_with_retry remote' mgrW none) ∧
    ((∀ k, k < mgrW.api_keys.length →
        ∃ msg, remoteW k = .error msg ∧ isRateLimitError msg = true) →
      ∃ mf, embed_content_with_retry remoteW mgrW none =
        (.error ("All " ++ toString mgrW.api_keys.length ++ " API keys hit rate limits"), mf)) :=
  claim_C3 remoteW mgrW (by decide)

/-- C5 counterexample: the claim says changing either input changes the
identifier, but a None date and an empty-string date hash the same base
string, so two different inputs share one identifier. -/
theorem claim_C5_counterexample :
    regulation_id_for "abc" none = regulation_id_for "abc" (some "") ∧
    (none : Option String) ≠ some "" := ⟨rfl, by simp⟩

/-- C5 amended: regulation_id_for is deterministic and equals the
SHA-256 hex digest of (date_of_law or "") + "|" + text; changing the
text while the date is fixed changes the hashed base string, and so
does any date change that changes (date_of_law or ""); but a None date
and the empty-string date coincide, yielding identical identifiers. -/
theorem claim_C5 :
    (∀ (t : String) (d : Option String),
      regulation_id_for t d = sha256hex (pyOrEmpty d ++ "|" ++ t)) ∧
    (∀ (t1 t2 : String) (d1 d2 : Option String), t1 = t2 → d1 = d2 →
      regulation_id_for t1 d1 = regulation_id_for t2 d2) ∧
    (∀ (t1 t2 : String) (d : Option String), t1 ≠ t2 →
      regulationBase t1 d ≠ regulationBase t2 d) ∧
    (∀ (t : String) (d1 d2 : Option String), pyOrEmpty d1 ≠ pyOrEmpty d2 →
      regulationBase t d1 ≠ regulationBase t d2) ∧
    (∀ (t : String) (d1 d2 : Option String), pyOrEmpty d1 = pyOrEmpty d2 →
      regulation_id_for t d1 = regulation_id_for t d2) := by
  refine ⟨fun t d => rfl, ?_, ?_, ?_, ?_⟩
  · intro t1 t2 d1 d2 h1 h2; rw [h1, h2]
  · intro t1 t2 d h hbase
    apply h
    have hd := congrArg String.data hbase
    simp only [regulationBase, String.data_append, List.append_assoc,
      List.append_cancel_left_eq] at hd
    exact String.ext hd
  · intro t d1 d2 h hbase
    apply h
    have hd := congrArg String.data hbase
    simp only [regulationBase, String.data_append, List.append_assoc,
      List.append_cancel_right_eq] at hd
    exact String.ext hd
  · intro t d1 d2 h
    unfold regulation_id_for regulationBase
    rw [h]

theorem claim_C5_witness :
    regulation_id_for "abc" (some "2024-01-01") =
      sha256hex (pyOrEmpty (some "2024-01-01") ++ "|" ++ "abc") ∧
    regulationBase "abc" (some "d") ≠ regulationBase "abd" (some "d") ∧
    regulationBase "abc" (some "x") ≠ regulationBase "abc" (some "y") ∧
    regulation_id_for "abc" none = regulation_id_for "abc" (some "") :=
  ⟨claim_C5.1 "abc" (some "2024-01-01"),
   claim_C5.2.2.1 "abc" "abd" (some "d") (by decide),
   claim_C5.2.2.2.1 "abc" (some "x") (some "y") (by decide),
   claim_C5.2.2.2.2 "abc" none (some "") rfl⟩

theorem mem_of_getLast?_eq {α : Type} : ∀ {l : List α} {a : α}, l.getLast? = some a → a ∈ l
  | [], _, h => by simp at h
  | [_], _, h => by simp_all
  | x :: y :: ys, a, h => by
      rw [List.getLast?_cons_cons] at h
      exact List.mem_cons_of_mem x (mem_of_getLast?_eq h)

theorem rfindCore_bounds {text sub : List Char} {s e p : Nat}
    (h : rfindCore text sub s e = some p) : s ≤ p ∧ p + sub.length ≤ e := by
  unfold rfindCore at h
  have hm := mem_of_getLast?_eq h
  rw [List.mem_filter] at hm
  obtain ⟨-, hpred⟩ := hm
  simp only [Bool.and_eq_true, decide_eq_true_eq] at hpred
  exact ⟨hpred.1.1, hpred.1.2⟩

theorem length_dropWhile_le' {α : Type} (p : α → Bool) (l : List α) :
    (l.dropWhile p).length ≤ l.length := by
  induction l with
  | nil => simp
  | cons x xs ih =>
      rw [List.dropWhile_cons]
      split
      · exact Nat.le_succ_of_le ih
      · simp

theorem stripChars_length_le (l : List Char) : (stripChars l).length ≤ l.length := by
  unfold stripChars
  rw [List.length_reverse]
  calc ((l.dropWhile isPySpace).reverse.dropWhile isPySpace).length
      ≤ (l.dropWhile isPySpace).reverse.length := length_dropWhile_le' _ _
    _ = (l.dropWhile isPySpace).length := List.length_reverse _
    _ ≤ l.length := length_dropWhile_le' _ _

theorem bestBreakAux_le (text : List Char) (start e0 : Nat) :
    ∀ (seps : List (List Char)) (acc : Option Nat),
      (∀ b, acc = some b → b ≤ e0) →
      ∀ b, bestBreakAux text start e0 acc seps = some b → b ≤ e0 := by
  intro seps
  induction seps with
  | nil => intro acc hacc b hb; exact hacc b hb
  | cons sep rest ih =>
    intro acc hacc b hb
    rw [bestBreakAux] at hb
    revert hb
    cases hr : rfindCore text sep start e0 with
    | none => intro hb; exact ih acc hacc b hb
    | some pos =>
      by_cases hp : start + 100 < pos
      · simp only [hp, if_true]
        intro hb
        refine ih _ ?_ b hb
        intro b' hb'
        have hbound := (rfindCore_bounds hr).2
        have hb'' : b' = max (acc.getD 0) (pos + sep.length) := by
          injection hb'.symm
        rw [hb'']
        apply max_le _ hbound
        cases hacc0 : acc with
        | none => simp
        | some a0 => simpa using hacc a0 hacc0
      · simp only [hp, if_false]
        intro hb
        exact ih acc hacc b hb

theorem sentenceEnd_le (text : List Char) (start e0 : Nat) :
    sentenceEnd text start e0 ≤ e0 := by
  unfold sentenceEnd bestBreak
  cases hb : bestBreakAux text start e0 none sentenceSeps with
  | none => exact le_refl _
  | some b =>
    have hble := bestBreakAux_le text start e0 sentenceSeps none (by simp) b hb
    by_cases h : start + 100 < b <;> simp [h, hble]

theorem windowEnd_le (cs : Nat) (text : List Char) (start : Nat) :
    windowEnd cs text start ≤ start + cs := by
  unfold windowEnd
  have h1 : min (start + cs) text.length ≤ start + cs := min_le_left _ _
  have h2 := sentenceEnd_le text start (min (start + cs) text.length)
  by_cases hlt : min (start + cs) text.length < text.length
  · simp only [hlt, if_true]
    cases hr : rfindCore text paraSep start (min (start + cs) text.length) with
    | none => simp only [hr]; omega
    | some p =>
      simp only [hr]
      by_cases hp : start + 100 < p
      · simp only [hp, if_true]
        have h3 := (rfindCore_bounds hr).2
        simp only [paraSep, List.length_cons, List.length_nil] at h3
        omega
      · simp only [hp, if_false]; omega
  · simp only [hlt, if_false]; omega

theorem splitLoop_windows (cs ov : Nat) (text : List Char) :
    ∀ fuel start ws, splitLoop cs ov text fuel start = some ws →
      ∀ w ∈ ws, w.2 = windowEnd cs text w.1 := by
  intro fuel
  induction fuel with
  | zero =>
    intro start ws h w hw
    rw [splitLoop] at h
    by_cases hs : start < text.length
    · simp [hs] at h
    · simp [hs] at h; subst h; simp at hw
  | succ fuel ih =>
    intro start ws h w hw
    rw [splitLoop] at h
    by_cases hs : start < text.length
    · simp only [hs, if_true] at h
      by_cases he : text.length ≤ windowEnd cs text start
      · simp only [he, if_true, Option.some.injEq] at h
        subst h
        simp at hw
        subst hw
        rfl
      · simp only [he, if_false] at h
        revert h
        cases hrec : splitLoop cs ov text fuel (nextStart cs ov start (windowEnd cs text start)) with
        | none => intro h; simp at h
        | some rest =>
          intro h
          simp only [Option.some.injEq] at h
          subst h
          rcases List.mem_cons.mp hw with h1 | h2
          · subst h1; rfl
          · exact ih _ rest hrec w h2
    · simp only [hs, if_false, Option.some.injEq] at h
      subst h
      simp at hw

theorem splitLoop_chain (cs ov : Nat) (text : List Char) :
    ∀ fuel start ws, splitLoop cs ov text fuel start = some ws →
      List.Chain' (fun w w' => w'.1 = nextStart cs ov w.1 w.2) ws ∧
      (∀ w, ws.head? = some w → w.1 = start) := by
  intro fuel
  induction fuel with
  | zero =>
    intro start ws h
    rw [splitLoop] at h
    by_cases hs : start < text.length
    · simp [hs] at h
    · simp only [hs, if_false, Option.some.injEq] at h
      subst h
      exact ⟨List.chain'_nil, by intro w hw; simp at hw⟩
  | succ fuel ih =>
    intro start ws h
    rw [splitLoop] at h
    by_cases hs : start < text.length
    · simp only [hs, if_true] at h
      by_cases he : text.length ≤ windowEnd cs text start
      · simp only [he, if_true, Option.some.injEq] at h
        subst h
        refine ⟨List.chain'_singleton _, ?_⟩
        intro w hw
        simp at hw
        subst hw
        rfl
      · simp only [he, if_false] at h
        revert h
        cases hrec : splitLoop cs ov text fuel (nextStart cs ov start (windowEnd cs text start)) with
        | none => intro h; simp at h
        | some rest =>
          intro h
          simp only [Option.some.injEq] at h
          subst h
          obtain ⟨hchain, hhead⟩ := ih _ rest hrec
          refine ⟨List.chain'_cons'.mpr ⟨?_, hchain⟩, ?_⟩
          · intro w hw
            exact hhead w hw
          · intro w hw
            simp only [List.head?_cons, Option.some.injEq] at hw
            subst hw
            rfl
    · simp only [hs, if_false, Option.some.injEq] at h
      subst h
      exact ⟨List.chain'_nil, by intro w hw; simp at hw⟩

theorem splitLoop_isSome (cs ov : Nat) (text : List Char) (hcs : 2 ≤ cs) :
    ∀ fuel start, text.length ≤ start + fuel →
      (splitLoop cs ov text fuel start).isSome := by
  intro fuel
  induction fuel with
  | zero =>
    intro start h
    rw [splitLoop]
    simp [show ¬ start < text.length by omega]
  | succ fuel ih =>
    intro start h
    rw [splitLoop]
    by_cases hs : start < text.length
    · simp only [hs, if_true]
      by_cases he : text.length ≤ windowEnd cs text start
      · simp [he]
      · simp only [he, if_false]
        have hnext : text.length ≤ nextStart cs ov start (windowEnd cs text start) + fuel := by
          have hhalf : 1 ≤ cs / 2 := by omega
          have : start + cs / 2 ≤ nextStart cs ov start (windowEnd cs text start) :=
            le_max_right _ _
          omega
        have hrec := ih _ hnext
        revert hrec
        cases splitLoop cs ov text fuel (nextStart cs ov start (windowEnd cs text start)) with
        | none => intro h'; simp at h'
        | some rest => intro _; simp
    · simp [hs]

/-- C6: chunks of the src/src/vector_db_search.py splitter never exceed
chunk_size, the empty string splits to the empty sequence, and
splitting is deterministic. -/
theorem claim_C6 (cs ov : Nat) (text : List Char) (out : List (List Char))
    (h : split_text cs ov text = some out) :
    (∀ c ∈ out, c.length ≤ cs) ∧
    split_text cs ov [] = some [] ∧
    (∀ text', text = text' → split_text cs ov text = split_text cs ov text') := by
  refine ⟨?_, rfl, fun t' ht => by rw [ht]⟩
  intro c hc
  unfold split_text at h
  by_cases hemp : text.isEmpty
  · rw [if_pos hemp] at h
    injection h with h
    subst h
    simp at hc
  · rw [if_neg hemp] at h
    revert h
    cases hws : splitWindows cs ov text with
    | none => intro h; simp at h
    | some ws =>
      intro h
      simp only [Option.some.injEq] at h
      subst h
      have hc' := List.mem_of_mem_filter hc
      obtain ⟨w, hw, hcw⟩ := List.mem_map.mp hc'
      have hwnd := splitLoop_windows cs ov text _ _ _ hws w hw
      have hle : w.2 ≤ w.1 + cs := by
        rw [hwnd]; exact windowEnd_le cs text w.1
      calc c.length = (stripChars ((text.drop w.1).take (w.2 - w.1))).length := by rw [← hcw]
        _ ≤ ((text.drop w.1).take (w.2 - w.1)).length := stripChars_length_le _
        _ ≤ w.2 - w.1 := by rw [List.length_take]; exact min_le_left _ _
        _ ≤ cs := by omega

theorem claim_C6_witness :
    (∀ c ∈ [List.replicate 101 'a', List.replicate 203 'b'], c.length ≤ 300) ∧
    split_text 300 60 [] = some [] ∧
    (∀ text', wtext = text' → split_text 300 60 wtext = split_text 300 60 text') :=
  claim_C6 300 60 wtext [List.replicate 101 'a', List.replicate 203 'b'] (by decide)

/-- C8 counterexample: on a document whose paragraph break sits just
past the start + 100 threshold, the second window starts at
start + chunk_size // 2 = 150, after the first window's end 103, so the
region 103..149 of the input appears in no chunk and the windows do not
overlap by chunk_overlap. -/
theorem claim_C8_counterexample :
    splitWindows 300 60 wtext = some [(0, 103), (150, 353)] ∧
    ¬ (150 = 103 - 60) ∧ 103 < 150 :=
  ⟨by decide, by decide, by decide⟩

/-- C8 amended: each non-initial chunk window starts at
max(previous end - chunk_overlap, previous start + chunk_size // 2):
the overlap is chunk_overlap except when the anti-stall advance wins,
in which case the next window can begin after the previous window's end
and text in between is skipped. -/
theorem claim_C8 (cs ov : Nat) (text : List Char) (ws : List (Nat × Nat))
    (h : splitWindows cs ov text = some ws) :
    List.Chain' (fun w w' => w'.1 = nextStart cs ov w.1 w.2) ws :=
  (splitLoop_chain cs ov text (text.length + 1) 0 ws h).1

theorem claim_C8_witness :
    List.Chain' (fun w w' : Nat × Nat => w'.1 = nextStart 300 60 w.1 w.2)
      [(0, 103), (150, 353)] :=
  claim_C8 300 60 wtext [(0, 103), (150, 353)] (by decide)

theorem seedStep_at0 :
    seedStep 400 50 seedBugText 0 = (List.replicate 100 'x', 52, false) := by
  decide

theorem seedStep_at52 :
    seedStep 400 50 seedBugText 52 = (List.replicate 48 'x', 52, false) := by
  decide

theorem seedLoop_stuck : ∀ fuel, seedLoop 400 50 seedBugText fuel 52 = none := by
  intro fuel
  induction fuel with
  | zero =>
    rw [seedLoop, if_pos (by decide)]
  | succ fuel ih =>
    rw [seedLoop, if_pos (by decide), seedStep_at52]
    simp only [Bool.false_eq_true, if_false, ih]

/-- C7 (code bug): the seed_defaults.py revision of split_text has no
guard on the advance start = end - chunk_overlap, so on a document
whose only paragraph break is 100 characters in, the loop reaches
start = 52 with end = 102 and never advances again: no amount of fuel
makes the loop terminate (the Python loop runs forever, appending the
same chunk). -/
theorem claim_C7 : ∀ fuel : Nat, seed_split_text 400 50 seedBugText fuel = none := by
  intro fuel
  unfold seed_split_text
  rw [if_neg (by decide)]
  cases fuel with
  | zero => rw [seedLoop, if_pos (by decide)]
  | succ fuel =>
    rw [seedLoop, if_pos (by decide), seedStep_at0]
    simp only [Bool.false_eq_true, if_false, seedLoop_stuck fuel]

/-- C2: tenant-scoped search with fallback.  If the tenant query
returns zero documents and the tenant is not "default", search
re-queries the "default" tenant and returns those results (one hop);
if the tenant query returns documents, no fallback occurs and the
result is independent of anything but the tenant query; if both
queries return zero documents the result is the empty list, not an
error. -/
theorem claim_C2 (q : String → String → Nat → Except String ChromaResult)
    (query user_id : String) (top_k : Nat) :
    (∀ r1 r2, q query user_id top_k = .ok r1 → docsOf r1 = [] → user_id ≠ "default" →
      q query "default" top_k = .ok r2 → docsOf r2 ≠ [] →
      search q query user_id top_k = .ok (List.zip (idsOf r2) (docsOf r2))) ∧
    (∀ r1, q query user_id top_k = .ok r1 → docsOf r1 ≠ [] →
      search q query user_id top_k = .ok (List.zip (idsOf r1) (docsOf r1)) ∧
      ∀ q' : String → String → Nat → Except String ChromaResult,
        q' query user_id top_k = q query user_id top_k →
        search q' query user_id top_k = search q query user_id top_k) ∧
    (∀ r1 r2, q query user_id top_k = .ok r1 → docsOf r1 = [] → user_id ≠ "default" →
      q query "default" top_k = .ok r2 → docsOf r2 = [] →
      search q query user_id top_k = .ok []) := by
  refine ⟨?_, ?_, ?_⟩
  · intro r1 r2 h1 hd1 hu h2 hd2
    simp [search, h1, h2, List.isEmpty_iff, hd1, hu, hd2]
  · intro r1 h1 hd1
    constructor
    · simp [search, h1, List.isEmpty_iff, hd1]
    · intro q' hq'
      have h1' : q' query user_id top_k = .ok r1 := by rw [hq', h1]
      simp [search, h1, h1', List.isEmpty_iff, hd1]
  · intro r1 r2 h1 hd1 hu h2 hd2
    simp [search, h1, h2, List.isEmpty_iff, hd1, hu, hd2]

theorem claim_C2_witness :
    search qW "data retention" "acme" 5 =
      .ok (List.zip (idsOf ⟨[["d1"]], [["shared doc"]]⟩)
        (docsOf ⟨[["d1"]], [["shared doc"]]⟩)) :=
  (claim_C2 qW "data retention" "acme" 5).1 ⟨[[]], [[]]⟩ ⟨[["d1"]], [["shared doc"]]⟩
    rfl rfl (by decide) rfl (by decide)

/-- C4 counterexample: in src/src/vector_db_search.py the tenant-scoped
query is wrapped in try/except that returns [], so a backend error from
the first search is swallowed and converted into an empty result
instead of propagating. -/
theorem claim_C4_counterexample :
    search (fun _ _ _ => .error "boom") "q" "acme" 5 = .ok [] ∧
    (Except.ok ([] : List (String × String)) ≠
      (.error "boom" : Except String (List (String × String)))) :=
  ⟨rfl, by simp⟩

/-- C4 amended: seed_defaults.py's add_document and search propagate
backend errors to the caller; in src/src/vector_db_search.py only the
fallback query's errors propagate, while an error from the initial
tenant-scoped query is caught and converted to an empty result (and
its add_document is an empty stub). -/
theorem claim_C4 (q : String → String → Nat → Except String ChromaResult)
    (query user_id : String) (top_k : Nat) :
    (∀ e, q query user_id top_k = .error e →
      seed_search q query user_id top_k = .error e) ∧
    (∀ r1 e, q query user_id top_k = .ok r1 → docsOf r1 = [] → user_id ≠ "default" →
      q query "default" top_k = .error e →
      seed_search q query user_id top_k = .error e ∧
      search q query user_id top_k = .error e) ∧
    (∀ (addC : List (List Char) → List (String × String) → List String → Except String Unit)
       (uuids : Nat → String) (cs ov : Nat) (text : List Char)
       (filename : String) (fuel : Nat) (chunks : List (List Char)),
      seed_split_text cs ov text fuel = some chunks →
      seed_add_document addC uuids cs ov text filename user_id fuel =
        some (addC chunks (chunks.map (fun _ => (filename, user_id)))
          ((List.range chunks.length).map (fun i => user_id ++ "-" ++ uuids i)))) ∧
    (∀ e, q query user_id top_k = .error e →
      search q query user_id top_k = .ok []) := by
  refine ⟨?_, ?_, ?_, ?_⟩
  · intro e h
    simp [seed_search, h]
  · intro r1 e h1 hd1 hu h2
    constructor
    · simp [seed_search, h1, h2, List.isEmpty_iff, hd1, hu]
    · simp [search, h1, h2, List.isEmpty_iff, hd1, hu]
  · intro addC uuids cs ov text filename fuel chunks hsplit
    simp [seed_add_document, hsplit]
  · intro e h
    simp [search, h]

theorem claim_C4_witness :
    seed_search (fun _ _ _ => .error "storage down") "q" "acme" 5 = .error "storage down" ∧
    search (fun _ _ _ => .error "storage down") "q" "acme" 5 = .ok [] ∧
    seed_add_document (fun _ _ _ => .error "write failed") (fun _ => "u") 400 50
        ['h', 'i'] "f.txt" "acme" 3 = some (.error "write failed") :=
  ⟨(claim_C4 (fun _ _ _ => .error "storage down") "q" "acme" 5).1 "storage down" rfl,
   (claim_C4 (fun _ _ _ => .error "storage down") "q" "acme" 5).2.2.2 "storage down" rfl,
   (claim_C4 (fun _ _ _ => .error "storage down") "q" "acme" 5).2.2.1
     (fun _ _ _ => .error "write failed") (fun _ => "u") 400 50 ['h', 'i'] "f.txt" 3
     [['h', 'i']] (by decide)⟩

theorem dedupAux_le :
    ∀ (l : List (String × String)) (seen : List String) (uniq : List (String × String)),
      uniq.length < 3 → (dedupAux seen uniq l).length ≤ 3 := by
  intro l
  induction l with
  | nil => intro seen uniq h; rw [dedupAux]; omega
  | cons p rest ih =>
    intro seen uniq h
    obtain ⟨doc_id, t⟩ := p
    rw [dedupAux]
    by_cases hseen : seen.contains (fingerprint t) = true
    · rw [if_pos hseen, if_neg (by omega)]
      exact ih seen uniq h
    · rw [if_neg hseen]
      simp only []
      by_cases h3 : 3 ≤ (uniq ++ [(doc_id, t)]).length
      · rw [if_pos h3]
        simp only [List.length_append, List.length_cons, List.length_nil] at h3 ⊢
        omega
      · rw [if_neg h3]
        refine ih _ _ ?_
        simp only [List.length_append, List.length_cons, List.length_nil] at h3 ⊢
        omega

theorem cleanContent_le (t : String) : (cleanContent t).length ≤ 700 := by
  show (String.mk _).length ≤ 700
  simp only [String.length, String.mk]
  rw [List.length_take]
  exact min_le_left _ _

/-- C10: the retrieval tool _run is total over any search outcome: an
exception from either underlying search is rendered as the string
"ERROR: message"; a successful call yields either "NO RESULT" or the
joined blocks of at most 3 deduplicated excerpts, and every block's
content is trimmed to at most 700 characters. -/
theorem claim_C10 (searchO : String → String → Nat → Except String (List (String × String)))
    (query user_id : String) :
    (∀ e, searchO query user_id 10 = .error e →
      toolRun searchO query user_id = "ERROR: " ++ e) ∧
    (∀ r0 e, searchO query user_id 10 = .ok r0 → r0 = [] → user_id ≠ "default" →
      searchO query "default" 10 = .error e →
      toolRun searchO query user_id = "ERROR: " ++ e) ∧
    (∀ results : List (String × String), (dedupAux [] [] results).length ≤ 3) ∧
    (∀ t, (cleanContent t).length ≤ 700) ∧
    (∀ r0 results, searchO query user_id 10 = .ok r0 →
      (if r0.isEmpty ∧ user_id ≠ "default" then searchO query "default" 10 else .ok r0) =
        .ok results →
      toolRun searchO query user_id = "NO RESULT" ∨
      toolRun searchO query user_id =
        String.intercalate "\n" ((dedupAux [] [] results).map (fun p => mkBlock p.1 p.2))) := by
  refine ⟨?_, ?_, ?_, fun t => cleanContent_le t, ?_⟩
  · intro e h
    simp [toolRun, h]
  · intro r0 e h0 hr0 hu h1
    subst hr0
    simp [toolRun, h0, h1, hu]
  · intro results
    exact dedupAux_le results [] [] (by simp)
  · intro r0 results h0 h1
    simp only [toolRun, h0]
    rw [h1]
    by_cases hres : results.isEmpty
    · left; simp [hres]
    · simp only [hres, Bool.false_eq_true, if_false]
      by_cases huniq : (dedupAux [] [] results).isEmpty
      · left; simp [huniq]
      · right; simp [huniq]

theorem claim_C10_witness :
    toolRun (fun _ _ _ => .error "db down") "retention" "acme" = "ERROR: " ++ "db down" :=
  (claim_C10 (fun _ _ _ => .error "db down") "retention" "acme").1 "db down" rfl

theorem pyTrunc_le (n : Nat) (s : String) : (pyTrunc n s).length ≤ n := by
  show (String.mk _).length ≤ n
  simp only [String.length, String.mk]
  rw [List.length_take]
  exact min_le_left _ _

theorem pipelineRisks_ne_nil
    (res : Option (RiskAnalysisReport × FinalRecommendation) × Option String)
    (text : String) : pipelineRisks res text ≠ [] := by
  obtain ⟨r1, r2⟩ := res
  unfold pipelineRisks
  cases r1 with
  | none =>
    cases r2 with
    | none => simp
    | some e => simp
  | some rr =>
    cases r2 with
    | none =>
      by_cases h : rr.1.risks.isEmpty
      · simp [h]
      · simp only [h, Bool.false_eq_true, if_false]
        simpa [List.isEmpty_iff] using h
    | some e =>
      by_cases h : rr.1.risks.isEmpty
      · simp [h]
      · simp only [h, Bool.false_eq_true, if_false]
        simpa [List.isEmpty_iff] using h

/-- C1 counterexample: RiskItem.severity is an unvalidated pydantic str
(the HIGH/MEDIUM/LOW wording is only a Field description) and
divergence_summary is never truncated in the report dict, so an audit
output with severity "SEVERE" and a 900-character summary flows into
the report unchanged, violating both the severity and the
every-field-truncated parts of the claim. -/
theorem claim_C1_counterexample :
    ((run_arca_pipeline
        (fun _ => .ok (⟨[⟨"p1", "SEVERE", String.mk (List.replicate 900 'd'),
          "c", "n", "r"⟩]⟩, ⟨"rec", "COMPLIANT"⟩))
        "new regulation" "t1" none "2026-01-01").risks.map
          (fun r => r.severity) = ["SEVERE"] ∧
      ¬ ("SEVERE" = "HIGH" ∨ "SEVERE" = "MEDIUM" ∨ "SEVERE" = "LOW")) ∧
    ((run_arca_pipeline
        (fun _ => .ok (⟨[⟨"p1", "SEVERE", String.mk (List.replicate 900 'd'),
          "c", "n", "r"⟩]⟩, ⟨"rec", "COMPLIANT"⟩))
        "new regulation" "t1" none "2026-01-01").risks.map
          (fun r => r.divergence_summary.length) = [900] ∧ ¬ (900 ≤ 800)) := by
  exact ⟨⟨by decide, by decide⟩, by decide, by decide⟩

/-- C1 amended: for every oracle outcome and non-empty regulation text
the report satisfies total_risks_flagged = len(risks), 1 ≤ len ≤ 5, and
the three truncated fields respect their caps (conflicting and new-rule
excerpts 800, recommended action 500); severity and divergence_summary
pass through as produced by the audit stage (the synthetic fallback
items use HIGH resp. LOW). -/
theorem claim_C1
    (oracle : Nat → Except String (RiskAnalysisReport × FinalRecommendation))
    (text uid : String) (d : Option String) (today : String) (hne : text ≠ "") :
    (run_arca_pipeline oracle text uid d today).total_risks_flagged =
      (run_arca_pipeline oracle text uid d today).risks.length ∧
    1 ≤ (run_arca_pipeline oracle text uid d today).risks.length ∧
    (run_arca_pipeline oracle text uid d today).risks.length ≤ 5 ∧
    ∀ r ∈ (run_arca_pipeline oracle text uid d today).risks,
      r.conflicting_policy_excerpt.length ≤ 800 ∧
      r.new_rule_excerpt.length ≤ 800 ∧
      r.recommended_action.length ≤ 500 := by
  have hrisks : (run_arca_pipeline oracle text uid d today).risks =
      ((pipelineRisks (crewLoop oracle 3 0 none) text).take 5).map (fun r =>
        { policy_id := r.policy_id, severity := r.severity,
          divergence_summary := r.divergence_summary,
          conflicting_policy_excerpt := pyTrunc 800 r.conflicting_policy_excerpt,
          new_rule_excerpt := pyTrunc 800 r.new_rule_excerpt,
          recommended_action := pyTrunc 500 r.recommended_action }) := rfl
  have htot : (run_arca_pipeline oracle text uid d today).total_risks_flagged =
      ((pipelineRisks (crewLoop oracle 3 0 none) text).take 5).length := rfl
  refine ⟨?_, ?_, ?_, ?_⟩
  · rw [htot, hrisks, List.length_map]
  · rw [hrisks, List.length_map, List.length_take]
    have hpos : 0 < (pipelineRisks (crewLoop oracle 3 0 none) text).length :=
      List.length_pos.mpr (pipelineRisks_ne_nil (crewLoop oracle 3 0 none) text)
    exact le_min (by norm_num) hpos
  · rw [hrisks, List.length_map, List.length_take]
    exact min_le_left _ _
  · intro r hr
    rw [hrisks] at hr
    obtain ⟨r', _, hr'⟩ := List.mem_map.mp hr
    subst hr'
    exact ⟨pyTrunc_le _ _, pyTrunc_le _ _, pyTrunc_le _ _⟩

theorem claim_C1_witness :
    (run_arca_pipeline (fun _ => .error "quota") "reg text" "acme" none
        "2026-01-01").total_risks_flagged =
      (run_arca_pipeline (fun _ => .error "quota") "reg text" "acme" none
        "2026-01-01").risks.length ∧
    1 ≤ (run_arca_pipeline (fun _ => .error "quota") "reg text" "acme" none
        "2026-01-01").risks.length ∧
    (run_arca_pipeline (fun _ => .error "quota") "reg text" "acme" none
        "2026-01-01").risks.length ≤ 5 ∧
    ∀ r ∈ (run_arca_pipeline (fun _ => .error "quota") "reg text" "acme" none
        "2026-01-01").risks,
      r.conflicting_policy_excerpt.length ≤ 800 ∧
      r.new_rule_excerpt.length ≤ 800 ∧
      r.recommended_action.length ≤ 500 :=
  claim_C1 (fun _ => .error "quota") "reg text" "acme" none "2026-01-01" (by decide)
